import Mathlib

set_option autoImplicit false

/-! # Shallow embedding of the pycif hierarchical layout core

Embedded from src/pycif/draw/BBox.py and src/pycif/draw/Component.py (whose
twin src/pycif/draw/Compo.py is identical up to renaming), covering the
bounding-box accumulator, option resolution, layer-map shorthand resolution,
subcomponent attachment and recursive flattening.  Numeric values are
modelled as rationals (polygon geometry as integer points), Python dicts as
insertion-ordered association lists, and raised exceptions as Except values.
Where object identity or in-place mutation is observable (layer-map padding,
attachment, polygon copies) the embedding threads an explicit store or a
fresh-id counter so that aliasing and copying are visible. -/

/-! ## BBox (src/pycif/draw/BBox.py) -/

/-- Extended coordinate: a rational number or one of the two float infinities
that BBox uses as sentinels for an empty box (float('inf'), float('-inf')).
Points fed to `add_point` always carry finite coordinates. -/
inductive XR where
  | ninf
  | fin (q : ℚ)
  | pinf
deriving DecidableEq

/-- Strict less-than on extended coordinates, as float comparison behaves. -/
def XR.blt : XR → XR → Bool
  | .ninf, .ninf => false
  | .ninf, .fin _ => true
  | .ninf, .pinf => true
  | .fin _, .ninf => false
  | .fin a, .fin b => decide (a < b)
  | .fin _, .pinf => true
  | .pinf, _ => false

/-- Extract the finite value of an extended coordinate.  The junk value 0 for
the infinities is never reached by the queries below: they are guarded by
`assert_nonempty`, and `add_point` only ever stores finite coordinates. -/
def XR.toQ : XR → ℚ
  | .fin q => q
  | _ => 0

/-- Float addition of a finite offset (inf + finite = inf). -/
def XR.addQ : XR → ℚ → XR
  | .fin q, d => .fin (q + d)
  | .ninf, _ => .ninf
  | .pinf, _ => .pinf

/-- Float subtraction of a finite offset (inf - finite = inf). -/
def XR.subQ : XR → ℚ → XR
  | .fin q, d => .fin (q - d)
  | .ninf, _ => .ninf
  | .pinf, _ => .pinf

/-- Module constant MATHEMATIC_Y_AXIS (BBox.py line 11): increasing Y means
up. -/
def MATHEMATIC_Y_AXIS : Bool := true

/-- BBox: min/max X/Y rectangle, optionally bound to a Transformable.  The
bound Transformable is a non-owning reference, modelled as an opaque handle
index. -/
structure BBox where
  max_x : XR
  max_y : XR
  min_x : XR
  min_y : XR
  transformable : Option Nat
deriving DecidableEq

/-- BBox.__init__ without the optional xyarray: all four coordinates start at
the empty sentinels. -/
def BBox.init (tr : Option Nat) : BBox :=
  { max_x := .ninf, max_y := .ninf, min_x := .pinf, min_y := .pinf,
    transformable := tr }

/-- BBox.add_point: four independent sentinel-aware comparisons, exactly as
the source's four if statements. -/
def BBox.add_point (b : BBox) (p : ℚ × ℚ) : BBox :=
  let b1 := if XR.blt b.max_x (.fin p.1) then { b with max_x := .fin p.1 } else b
  let b2 := if XR.blt (.fin p.1) b1.min_x then { b1 with min_x := .fin p.1 } else b1
  let b3 := if XR.blt b2.max_y (.fin p.2) then { b2 with max_y := .fin p.2 } else b2
  if XR.blt (.fin p.2) b3.min_y then { b3 with min_y := .fin p.2 } else b3

/-- BBox.add_xyarray: add_point over each point in order. -/
def BBox.add_xyarray (b : BBox) (ps : List (ℚ × ℚ)) : BBox :=
  ps.foldl BBox.add_point b

/-- BBox.is_empty: any coordinate still at its sentinel. -/
def BBox.is_empty (b : BBox) : Bool :=
  b.max_x == .ninf || b.max_y == .ninf || b.min_x == .pinf || b.min_y == .pinf

/-- BBox.copy: same four coordinates, never bound (BBox() is created with no
transformable). -/
def BBox.copy (b : BBox) : BBox :=
  { max_x := b.max_x, max_y := b.max_y, min_x := b.min_x, min_y := b.min_y,
    transformable := none }

/-- BBox.width: assert_nonempty, then max_x - min_x. -/
def BBox.width (b : BBox) : Except String ℚ :=
  if b.is_empty then .error "Tried to get width of empty bbox."
  else .ok (b.max_x.toQ - b.min_x.toQ)

/-- BBox.height: assert_nonempty, then max_y - min_y. -/
def BBox.height (b : BBox) : Except String ℚ :=
  if b.is_empty then .error "Tried to get height of empty bbox."
  else .ok (b.max_y.toQ - b.min_y.toQ)

/-- BBox.left. -/
def BBox.left (b : BBox) : Except String ℚ :=
  if b.is_empty then .error "Tried to get left of empty bbox."
  else .ok b.min_x.toQ

/-- BBox.top (MATHEMATIC_Y_AXIS selects max_y). -/
def BBox.top (b : BBox) : Except String ℚ :=
  if b.is_empty then .error "Tried to get top of empty bbox."
  else .ok (if MATHEMATIC_Y_AXIS then b.max_y.toQ else b.min_y.toQ)

/-- BBox.right. -/
def BBox.right (b : BBox) : Except String ℚ :=
  if b.is_empty then .error "Tried to get right of empty bbox."
  else .ok b.max_x.toQ

/-- BBox.bottom (MATHEMATIC_Y_AXIS selects min_y). -/
def BBox.bottom (b : BBox) : Except String ℚ :=
  if b.is_empty then .error "Tried to get bottom of empty bbox."
  else .ok (if MATHEMATIC_Y_AXIS then b.min_y.toQ else b.max_y.toQ)

/-- Modelled from the spec: the Point / BoundPoint values returned by bbox
queries (pc.Point and pc.BoundPoint are not under src/); a BoundPoint carries
the non-owning reference to the bound Transformable. -/
inductive BPoint where
  | point (x y : ℚ)
  | boundPoint (x y : ℚ) (transformable : Nat)
deriving DecidableEq

/-- BBox.interpolate: min + size * ratio per axis.  The size is read through
the width/height properties, so an empty bbox raises from there (the width
message first, as in the source's evaluation order). -/
def BBox.interpolate (b : BBox) (x_ratio y_ratio : ℚ) : Except String BPoint := do
  let w ← b.width
  let h ← b.height
  let x := b.min_x.toQ + w * x_ratio
  let y := b.min_y.toQ + h * y_ratio
  match b.transformable with
  | none => return .point x y
  | some t => return .boundPoint x y t

/-- BBox.mid. -/
def BBox.mid (b : BBox) : Except String BPoint :=
  if b.is_empty then .error "Tried to get middle point of empty bbox"
  else b.interpolate (1/2) (1/2)

/-- BBox.top_mid (the source passes the boolean MATHEMATIC_Y_AXIS as the
ratio, i.e. 1). -/
def BBox.top_mid (b : BBox) : Except String BPoint :=
  if b.is_empty then .error "Tried to get top middle point of empty bbox"
  else b.interpolate (1/2) (if MATHEMATIC_Y_AXIS then 1 else 0)

/-- BBox.bot_mid. -/
def BBox.bot_mid (b : BBox) : Except String BPoint :=
  if b.is_empty then .error "Tried to get bottom middle point of empty bbox"
  else b.interpolate (1/2) (if MATHEMATIC_Y_AXIS then 0 else 1)

/-- BBox.mid_left. -/
def BBox.mid_left (b : BBox) : Except String BPoint :=
  if b.is_empty then .error "Tried to get middle left point of empty bbox"
  else b.interpolate 0 (1/2)

/-- BBox.mid_right. -/
def BBox.mid_right (b : BBox) : Except String BPoint :=
  if b.is_empty then .error "Tried to get middle right point of empty bbox"
  else b.interpolate 1 (1/2)

/-- BBox.top_left. -/
def BBox.top_left (b : BBox) : Except String BPoint :=
  if b.is_empty then .error "Tried to get top left point of empty bbox"
  else b.interpolate 0 (if MATHEMATIC_Y_AXIS then 1 else 0)

/-- BBox.top_right. -/
def BBox.top_right (b : BBox) : Except String BPoint :=
  if b.is_empty then .error "Tried to get top right point of empty bbox"
  else b.interpolate 1 (if MATHEMATIC_Y_AXIS then 1 else 0)

/-- BBox.bot_left. -/
def BBox.bot_left (b : BBox) : Except String BPoint :=
  if b.is_empty then .error "Tried to get bottom left point of empty bbox"
  else b.interpolate 0 (if MATHEMATIC_Y_AXIS then 0 else 1)

/-- BBox.bot_right. -/
def BBox.bot_right (b : BBox) : Except String BPoint :=
  if b.is_empty then .error "Tried to get bottom right point of empty bbox"
  else b.interpolate 1 (if MATHEMATIC_Y_AXIS then 0 else 1)

/-- Python's y = y or x from BBox.pad: None and 0 are both falsy, so an
explicit vertical amount of 0 is replaced by the horizontal amount. -/
def pyOrDefault (y : Option ℚ) (x : ℚ) : ℚ :=
  match y with
  | none => x
  | some v => if v = 0 then x else v

/-- BBox.pad: assert_nonempty, resolve y via y = y or x, copy (which drops
the bound transformable) and grow each side additively. -/
def BBox.pad (b : BBox) (x : ℚ) (y : Option ℚ)
    (left top right bottom : ℚ) : Except String BBox :=
  if b.is_empty then .error "Tried to pad empty bbox"
  else
    let y' := pyOrDefault y x
    let new := b.copy
    .ok { new with
          min_x := new.min_x.subQ (left + x),
          max_x := new.max_x.addQ (right + x),
          min_y := new.min_y.subQ (bottom + y'),
          max_y := new.max_y.addQ (top + y') }

/-! ## Options (src/pycif/draw/Component.py lines 97-118) -/

/-- Python dict assignment d[k] = v: overwrite in place if the key exists
(keeping its position), else append a new entry at the end. -/
def dictSet (d : List (String × Int)) (k : String) (v : Int) :
    List (String × Int) :=
  if d.any (fun kv => kv.1 == k) then
    d.map (fun kv => if kv.1 == k then (k, v) else kv)
  else d ++ [(k, v)]

/-- The exception raised by Component.Options.__init__ for unknown overrides
(pc.draw.Option.UnknownOptionSuppliedError); its message interpolates the
whole set of unknown options and the known option names. -/
inductive OptionsError where
  | unknownOptionSupplied (unknown known : List String)
deriving DecidableEq

/-- The defaults pass of Component.Options.__init__: walk the MRO (the class
itself first, then its ancestors, stopping before dict) and for every Option
declared by each class, in declaration order, assign self[name] = default.
Because assignments later in the walk overwrite earlier ones, an ancestor's
declaration overwrites a descendant's redeclaration of the same name.
`mro` lists, most-derived class first, the (name, default) pairs that each
class of the specialization chain declares (vars(parent) in declaration
order); option defaults are modelled as integers. -/
def optionsDefaults (mro : List (List (String × Int))) : List (String × Int) :=
  mro.foldl (fun acc decls => decls.foldl (fun a kv => dictSet a kv.1 kv.2) acc) []

/-- The declared option names: the keys of the resolved defaults dict. -/
def optionKeys (mro : List (List (String × Int))) : List String :=
  (optionsDefaults mro).map Prod.fst

/-- Component.Options.__init__ (lines 98-118): build the defaults from the
MRO walk; with no overrides dict return them; otherwise compute
set(values.keys()) - self.keys(), raise UnknownOptionSuppliedError listing
that whole set if it is nonempty, else apply every override.  An error means
construction aborts and no Options instance is ever produced. -/
def Options_init (mro : List (List (String × Int)))
    (values : Option (List (String × Int))) :
    Except OptionsError (List (String × Int)) :=
  let defaults := optionsDefaults mro
  match values with
  | none => .ok defaults
  | some vs =>
    let unknown := (vs.map Prod.fst).dedup.filter
      (fun k => !((defaults.map Prod.fst).contains k))
    if unknown.isEmpty then
      .ok (vs.foldl (fun a kv => dictSet a kv.1 kv.2) defaults)
    else
      .error (.unknownOptionSupplied unknown (defaults.map Prod.fst))

/-! ## Layer-map shorthand resolution (Component.py lines 448-520) -/

/-- A layer map: Python dict from child layer name to parent layer name or
None (discard), as an insertion-ordered association list. -/
abbrev LMap := List (String × Option String)

/-- Dict lookup layermap[layer].  A missing key would be a KeyError in
Python; attach-time validation makes that unreachable in every use below, so
the embedding totalizes it to None (discard). -/
def lmapGet (m : LMap) (k : String) : Option String :=
  match m.lookup k with
  | some v => v
  | none => none

/-- The SubcomponentLayermapShorthand type (line 20): None, a single parent
layer name, or a full child-to-parent mapping dict. -/
inductive LayermapShorthand where
  | absent
  | single (s : String)
  | full (d : LMap)
deriving DecidableEq

/-- The exceptions raised by parse_subcomponent_layermap_shorthand, one
constructor per raise site.  `ambiguous` is the spec's AmbiguousLayerMap
(line 468, reporting both layer sets); the other four are the spec's
InvalidLayerMap. -/
inductive LayerMapError where
  | ambiguous (childLayers parentLayers : List String)
  | singleNotSole (childLayers : List String)
  | singleNotInParent (s : String)
  | keysNotSubset
  | valuesNotSubset
deriving DecidableEq

/-- The non-fatal log messages emitted during resolution: the implicit
sole-layer-to-sole-layer mapping (line 460) and the discarded-layer padding
warning (line 511). -/
inductive LayerMapWarning where
  | implicitSingle (child parent : String)
  | discardedLayer (l : String)
deriving DecidableEq

/-- True when a dict value is a declared parent layer (an explicit None value
is not). -/
def isParentLayerValue (pl : List String) : Option String → Bool
  | some v => pl.contains v
  | none => false

/-- parse_subcomponent_layermap_shorthand (lines 448-520), pure value level:
resolve the shorthand against set(parent.layers) and set(child.layers)
(modelled as deduplicated lists), then pad every child layer missing from the
resulting map to None with a warning.  Returns the emitted warnings together
with the resolved map. -/
def parse_subcomponent_layermap_shorthand (parentLayers childLayers : List String)
    (sh : LayermapShorthand) :
    Except LayerMapError (List LayerMapWarning × LMap) :=
  let pl := parentLayers.dedup
  let cl := childLayers.dedup
  let branch : Except LayerMapError (List LayerMapWarning × LMap) :=
    match sh with
    | .absent =>
      if cl.all (fun l => pl.contains l) then
        .ok ([], cl.map (fun l => (l, some l)))
      else if pl.length == 1 && cl.length == 1 then
        .ok ([.implicitSingle (cl.headD "") (pl.headD "")],
             [(cl.headD "", some (pl.headD ""))])
      else
        .error (.ambiguous cl pl)
    | .single s =>
      if cl.length != 1 then .error (.singleNotSole cl)
      else if !(pl.contains s) then .error (.singleNotInParent s)
      else .ok ([], [(cl.headD "", some s)])
    | .full d =>
      if !(d.all (fun kv => cl.contains kv.1)) then .error .keysNotSubset
      else if !(d.all (fun kv => isParentLayerValue pl kv.2)) then
        .error .valuesNotSubset
      else .ok ([], d)
  match branch with
  | .error e => .error e
  | .ok (w, m) =>
    let missing := cl.filter (fun l => !((m.map Prod.fst).contains l))
    .ok (w ++ missing.map .discardedLayer, m ++ missing.map (fun l => (l, none)))

/-- A heap of Python dict objects, indexed by position; cell i holds the
contents of one dict. -/
abbrev DictStore := List LMap

/-- The dict branch of parse_subcomponent_layermap_shorthand (lines 491-520)
with the caller's dict as an explicit heap cell, so the aliasing in the
source is visible: layermap = layermap_shorthand binds the caller's object
without copying, the padding loop layermap[missing_layer] = None mutates it
through that alias, and the function returns the very same object. -/
def parse_layermap_dict_in_store (parentLayers childLayers : List String)
    (store : DictStore) (i : Nat) :
    Except LayerMapError (DictStore × Nat) :=
  let pl := parentLayers.dedup
  let cl := childLayers.dedup
  let d := store.getD i []
  if !(d.all (fun kv => cl.contains kv.1)) then .error .keysNotSubset
  else if !(d.all (fun kv => isParentLayerValue pl kv.2)) then
    .error .valuesNotSubset
  else
    let missing := cl.filter (fun l => !((d.map Prod.fst).contains l))
    .ok (store.set i (d ++ missing.map (fun l => (l, none))), i)

/-! ## Subcomponent attachment (Component.py lines 239-258) -/

/-- The per-instance state that add_subcomponent touches: the instance's
layer set and its list of Subcomponent attachments (child instance, resolved
layer map).  Instances are identified by their index in an explicit store so
that cyclic object graphs are representable. -/
structure CompoNode where
  layers : List String
  subcompos : List (Nat × LMap)
deriving DecidableEq

/-- Component.add_subcomponent (lines 239-258) over the instance store:
resolve the layermap shorthand against the parent's and the child's layers,
wrap the child in a Subcomponent record, append it to the parent's
subcomponent list.  The source performs no cycle detection of any kind.
Out-of-range references read as an empty default node (unreachable for real
objects). -/
def add_subcomponent (store : List CompoNode) (parent child : Nat)
    (sh : LayermapShorthand) : Except LayerMapError (List CompoNode) :=
  let p := store.getD parent ⟨[], []⟩
  let c := store.getD child ⟨[], []⟩
  match parse_subcomponent_layermap_shorthand p.layers c.layers sh with
  | .error e => .error e
  | .ok wm =>
    .ok (store.set parent { p with subcompos := p.subcompos ++ [(child, wm.2)] })

/-! ## Flattening (Component.py lines 302-331, 410-446)

Polygon geometry is modelled as integer point lists; every polygon carries an
id so that object identity is observable: `copy` hands out a fresh id from an
explicit counter, exactly where the source clones polygons for export. -/

/-- A polygon: an object id plus its points.  The Polygon capability itself
(points, copy) is not under src/. -/
structure Polygon where
  id : Nat
  pts : List (Int × Int)
deriving DecidableEq

/-- Modelled from the spec: Transform is a composable 2-D affine map
(pc.Transformable is not under src/); (x, y) goes to
(a x + b y + e, c x + d y + f). -/
structure Affine where
  a : Int
  b : Int
  c : Int
  d : Int
  e : Int
  f : Int
deriving DecidableEq

/-- Apply an affine transform to one point. -/
def Affine.apply (t : Affine) (p : Int × Int) : Int × Int :=
  (t.a * p.1 + t.b * p.2 + t.e, t.c * p.1 + t.d * p.2 + t.f)

/-- Modelled from the spec: Polygon.copy() returns a fresh object with the
same points; the fresh object id is drawn from the threaded counter. -/
def Polygon.copy (p : Polygon) (n : Nat) : Polygon × Nat :=
  ({ id := n, pts := p.pts }, n + 1)

/-- Modelled from the spec: Polygon.apply_transform transforms the polygon's
points in place and returns the same object (§4.4; always called on a fresh
copy in the flattener). -/
def Polygon.apply_transform (p : Polygon) (t : Affine) : Polygon :=
  { id := p.id, pts := p.pts.map t.apply }

/-- Subpolygon (lines 410-425): one polygon plus the layer it belongs to in
its owner. -/
structure Subpolygon where
  poly : Polygon
  layer : String
deriving DecidableEq

/-- Subpolygon.get_subpolygon: a new Subpolygon holding a copy of the
polygon (the clone point for export). -/
def Subpolygon.get_subpolygon (sp : Subpolygon) (n : Nat) : Subpolygon × Nat :=
  let r := sp.poly.copy n
  (⟨r.1, sp.layer⟩, r.2)

/-- Subpolygon.get_polygon: a copy of the stored polygon. -/
def Subpolygon.get_polygon (sp : Subpolygon) (n : Nat) : Polygon × Nat :=
  sp.poly.copy n

/-- A component instance tree: its layers, its transform (via Transformable),
its Subcomponent attachments (child instance plus resolved layer map) and its
own Subpolygon attachments. -/
inductive Compo where
  | mk (layers : List String) (transform : Affine)
      (subcompos : List (Compo × LMap)) (subpolys : List Subpolygon)

def Compo.layers : Compo → List String
  | .mk ls _ _ _ => ls

def Compo.transform : Compo → Affine
  | .mk _ tf _ _ => tf

/-- The inner comprehension over self.subpolygons (line 326):
sp.get_subpolygon() for each owned subpolygon, in order. -/
def copySubpolygons : List Subpolygon → Nat → List Subpolygon × Nat
  | [], n => ([], n)
  | sp :: rest, n =>
    let r1 := sp.get_subpolygon n
    let r2 := copySubpolygons rest r1.2
    (r1.1 :: r2.1, r2.2)

/-- The body of Subcomponent.get_subpolygons (lines 441-446): for each
subpolygon of the child, if its layer is not mapped to None, copy the polygon
and relabel it through the layer map, else drop it. -/
def remapCopy (lm : LMap) : List Subpolygon → Nat → List Subpolygon × Nat
  | [], n => ([], n)
  | sp :: rest, n =>
    match lmapGet lm sp.layer with
    | none => remapCopy lm rest n
    | some tgt =>
      let r1 := sp.get_polygon n
      let r2 := remapCopy lm rest r1.2
      (⟨r1.1, tgt⟩ :: r2.1, r2.2)

/-- The outer comprehension of Component.get_subpolygons (lines 310-331): for
each collected subpolygon, if its layer is not mapped to None, copy its
polygon, optionally apply self.transform, and relabel through the layer
map. -/
def outerPass (lm : LMap) (tf : Affine) (doT : Bool) :
    List Subpolygon → Nat → List Subpolygon × Nat
  | [], n => ([], n)
  | sp :: rest, n =>
    match lmapGet lm sp.layer with
    | none => outerPass lm tf doT rest n
    | some tgt =>
      let r1 := sp.get_polygon n
      let q := if doT then r1.1.apply_transform tf else r1.1
      let r2 := outerPass lm tf doT rest r1.2
      (⟨q, tgt⟩ :: r2.1, r2.2)

mutual

/-- Component.get_subpolygons (lines 302-331): with no layermap argument the
identity map over self.layers is used (dict(zip(self.layers, self.layers)),
an association list with the same lookups); the inner list is every
subcomponent's get_subpolygons output in order followed by copies of the own
subpolygons; the outer comprehension then copies, transforms and relabels. -/
def Compo.get_subpolygons (c : Compo) (layermap : Option LMap) (doT : Bool)
    (n : Nat) : List Subpolygon × Nat :=
  match c with
  | .mk layers tf subs polys =>
    let lm := layermap.getD (layers.map (fun l => (l, some l)))
    let r1 := subsPass subs n
    let r2 := copySubpolygons polys r1.2
    outerPass lm tf doT (r1.1 ++ r2.1) r2.2
termination_by (sizeOf c, 1)

/-- The comprehension over self.subcomponents (lines 321-324), flattening
each Subcomponent's get_subpolygons output in order. -/
def subsPass (subs : List (Compo × LMap)) (n : Nat) : List Subpolygon × Nat :=
  match subs with
  | [] => ([], n)
  | (child, lm) :: rest =>
    let r1 := subcompoPass child lm n
    let r2 := subsPass rest r1.2
    (r1.1 ++ r2.1, r2.2)
termination_by (sizeOf subs, 2)

/-- Subcomponent.get_subpolygons (lines 440-446): recurse into the child with
default arguments, then copy and relabel through the attachment's layer
map. -/
def subcompoPass (child : Compo) (lm : LMap) (n : Nat) : List Subpolygon × Nat :=
  let r1 := child.get_subpolygons none true n
  remapCopy lm r1.1 r1.2
termination_by (sizeOf child, 2)

end

/-- flatten(instance): get_subpolygons with default arguments, the exported
ordered (polygon, layer) list. -/
def Compo.flatten (c : Compo) (n : Nat) : List Subpolygon × Nat :=
  c.get_subpolygons none true n

/-- The value content of a flattened subpolygon: its geometry and its layer,
forgetting the object id. -/
def stripId (sp : Subpolygon) : List (Int × Int) × String :=
  (sp.poly.pts, sp.layer)

/-- Geometry-level mirror of remapCopy: what it does to (points, layer)
values, with no allocation counter. -/
def remapGeo (lm : LMap) : List (List (Int × Int) × String) →
    List (List (Int × Int) × String)
  | [] => []
  | g :: rest =>
    match lmapGet lm g.2 with
    | none => remapGeo lm rest
    | some tgt => (g.1, tgt) :: remapGeo lm rest

/-- Geometry-level mirror of outerPass. -/
def outerGeo (lm : LMap) (tf : Affine) (doT : Bool) :
    List (List (Int × Int) × String) → List (List (Int × Int) × String)
  | [] => []
  | g :: rest =>
    match lmapGet lm g.2 with
    | none => outerGeo lm tf doT rest
    | some tgt =>
      ((if doT then g.1.map tf.apply else g.1), tgt) :: outerGeo lm tf doT rest

mutual

/-- Geometry-level mirror of Compo.get_subpolygons: the flattened
(points, layer) list as a pure function of the tree alone. -/
def Compo.flatten_geo (c : Compo) (layermap : Option LMap) (doT : Bool) :
    List (List (Int × Int) × String) :=
  match c with
  | .mk layers tf subs polys =>
    let lm := layermap.getD (layers.map (fun l => (l, some l)))
    outerGeo lm tf doT (subsGeo subs ++ polys.map stripId)
termination_by (sizeOf c, 1)

def subsGeo (subs : List (Compo × LMap)) : List (List (Int × Int) × String) :=
  match subs with
  | [] => []
  | (child, lm) :: rest => subcompoGeo child lm ++ subsGeo rest
termination_by (sizeOf subs, 2)

def subcompoGeo (child : Compo) (lm : LMap) : List (List (Int × Int) × String) :=
  remapGeo lm (child.flatten_geo none true)
termination_by (sizeOf child, 2)

end

/-! ## Theorems -/

theorem ite_lt_max (a x : ℚ) : (if a < x then x else a) = max a x := by
  rcases lt_or_ge a x with h | h
  · rw [if_pos h, max_eq_right h.le]
  · rw [if_neg (not_lt.mpr h), max_eq_left h]

theorem ite_lt_min (a x : ℚ) : (if x < a then x else a) = min a x := by
  rcases lt_or_ge x a with h | h
  · rw [if_pos h, min_eq_right h.le]
  · rw [if_neg (not_lt.mpr h), min_eq_left h]

theorem add_point_fin (mx my nx ny : ℚ) (tr : Option Nat) (x y : ℚ) :
    BBox.add_point ⟨.fin mx, .fin my, .fin nx, .fin ny, tr⟩ (x, y)
      = ⟨.fin (max mx x), .fin (max my y), .fin (min nx x), .fin (min ny y), tr⟩ := by
  rw [← ite_lt_max mx x, ← ite_lt_max my y, ← ite_lt_min nx x, ← ite_lt_min ny y]
  simp only [BBox.add_point, XR.blt, decide_eq_true_eq]
  by_cases h1 : mx < x <;> by_cases h2 : x < nx <;> by_cases h3 : my < y <;>
    by_cases h4 : y < ny <;> simp [h1, h2, h3, h4]

theorem add_xyarray_fin (ps : List (ℚ × ℚ)) :
    ∀ (mx my nx ny : ℚ) (tr : Option Nat),
    BBox.add_xyarray ⟨.fin mx, .fin my, .fin nx, .fin ny, tr⟩ ps
      = ⟨.fin (ps.foldl (fun a q => max a q.1) mx),
         .fin (ps.foldl (fun a q => max a q.2) my),
         .fin (ps.foldl (fun a q => min a q.1) nx),
         .fin (ps.foldl (fun a q => min a q.2) ny), tr⟩ := by
  induction ps with
  | nil => intro mx my nx ny tr; rfl
  | cons p rest ih =>
    intro mx my nx ny tr
    obtain ⟨x, y⟩ := p
    simp only [BBox.add_xyarray, List.foldl_cons] at ih ⊢
    rw [add_point_fin]
    exact ih _ _ _ _ tr

theorem init_add_point (tr : Option Nat) (x y : ℚ) :
    (BBox.init tr).add_point (x, y) = ⟨.fin x, .fin y, .fin x, .fin y, tr⟩ := rfl

theorem is_empty_fin (a b c d : ℚ) (tr : Option Nat) :
    (BBox.mk (.fin a) (.fin b) (.fin c) (.fin d) tr).is_empty = false := rfl

/-- C8: a nonempty point list accumulated into a fresh BBox — in any
insertion order, since every order is quantified over — has width equal to
the maximum of the x coordinates minus their minimum, and height likewise
for y (the foldl of max/min over the coordinates is exactly that maximum and
minimum).  And every BBox in the empty state — in particular a fresh one
into which no point was ever added, however the state was reached — fails
every derived query with EmptyBBoxException: width, height, left, right,
top, bottom, interpolate and all nine named anchors. -/
theorem bbox_width_height_max_min_and_empty_queries :
    (∀ (tr : Option Nat) (x y : ℚ) (ps : List (ℚ × ℚ)),
      (BBox.add_xyarray (BBox.init tr) ((x, y) :: ps)).width
          = .ok ((ps.map Prod.fst).foldl max x - (ps.map Prod.fst).foldl min x)
      ∧ (BBox.add_xyarray (BBox.init tr) ((x, y) :: ps)).height
          = .ok ((ps.map Prod.snd).foldl max y - (ps.map Prod.snd).foldl min y))
    ∧ (∀ tr, (BBox.init tr).is_empty = true)
    ∧ (∀ b : BBox, b.is_empty = true →
      b.width = .error "Tried to get width of empty bbox."
      ∧ b.height = .error "Tried to get height of empty bbox."
      ∧ b.left = .error "Tried to get left of empty bbox."
      ∧ b.right = .error "Tried to get right of empty bbox."
      ∧ b.top = .error "Tried to get top of empty bbox."
      ∧ b.bottom = .error "Tried to get bottom of empty bbox."
      ∧ (∀ xr yr, b.interpolate xr yr = .error "Tried to get width of empty bbox.")
      ∧ b.mid = .error "Tried to get middle point of empty bbox"
      ∧ b.top_mid = .error "Tried to get top middle point of empty bbox"
      ∧ b.bot_mid = .error "Tried to get bottom middle point of empty bbox"
      ∧ b.mid_left = .error "Tried to get middle left point of empty bbox"
      ∧ b.mid_right = .error "Tried to get middle right point of empty bbox"
      ∧ b.top_left = .error "Tried to get top left point of empty bbox"
      ∧ b.top_right = .error "Tried to get top right point of empty bbox"
      ∧ b.bot_left = .error "Tried to get bottom left point of empty bbox"
      ∧ b.bot_right = .error "Tried to get bottom right point of empty bbox") := by
  refine ⟨?_, fun tr => rfl, ?_⟩
  · intro tr x y ps
    have h : BBox.add_xyarray (BBox.init tr) ((x, y) :: ps)
        = ⟨.fin (ps.foldl (fun a q => max a q.1) x),
           .fin (ps.foldl (fun a q => max a q.2) y),
           .fin (ps.foldl (fun a q => min a q.1) x),
           .fin (ps.foldl (fun a q => min a q.2) y), tr⟩ := by
      simp only [BBox.add_xyarray, List.foldl_cons]
      have h0 : (BBox.init tr).add_point (x, y) = ⟨.fin x, .fin y, .fin x, .fin y, tr⟩ := rfl
      rw [h0]
      exact add_xyarray_fin ps x y x y tr
    rw [h]
    constructor
    · rw [BBox.width]
      simp [BBox.is_empty, XR.toQ, List.foldl_map]
    · rw [BBox.height]
      simp [BBox.is_empty, XR.toQ, List.foldl_map]
  · intro b hb
    have hw : b.width = .error "Tried to get width of empty bbox." := by
      simp [BBox.width, hb]
    have hi : ∀ xr yr, b.interpolate xr yr
        = .error "Tried to get width of empty bbox." := by
      intro xr yr
      unfold BBox.interpolate
      rw [hw]
      rfl
    refine ⟨hw, ?_, ?_, ?_, ?_, ?_, hi, ?_, ?_, ?_, ?_, ?_, ?_, ?_, ?_, ?_⟩ <;>
      simp [BBox.height, BBox.left, BBox.right, BBox.top, BBox.bottom,
        BBox.mid, BBox.top_mid, BBox.bot_mid, BBox.mid_left,
        BBox.mid_right, BBox.top_left, BBox.top_right, BBox.bot_left, BBox.bot_right,
        hb]

/-- Witness for C8: the rectangle [(0,0),(4,0),(4,3),(0,3)] has width 4, a
fresh BBox is empty and its width query fails. -/
theorem bbox_width_height_max_min_and_empty_queries_witness :
    (BBox.add_xyarray (BBox.init none) [(0, 0), (4, 0), (4, 3), (0, 3)]).width = .ok 4
    ∧ (BBox.init none).is_empty = true
    ∧ (BBox.init none).width = .error "Tried to get width of empty bbox." := by
  refine ⟨?_, bbox_width_height_max_min_and_empty_queries.2.1 none, ?_⟩
  · have h := (bbox_width_height_max_min_and_empty_queries.1 none 0 0
      [(4, 0), (4, 3), (0, 3)]).1
    rw [h]
    norm_num [List.foldl, max_def, min_def]
  · exact (bbox_width_height_max_min_and_empty_queries.2.2 (BBox.init none) rfl).1

/-- C9 counterexample: on the nonempty bbox with corners (0,0) and (1,1),
pad with horizontal amount 5 and an explicitly supplied vertical amount 0
lowers min_y to -5: the specified vertical amount 0 is not applied
additively (which would leave min_y at 0 - (0 + 0) = 0), because the
source's y = y or x treats the float 0 as unsupplied and uses the
horizontal amount vertically. -/
theorem bbox_pad_zero_vertical_cex :
    ((BBox.add_xyarray (BBox.init none) [(0, 0), (1, 1)]).pad 5 (some 0) 0 0 0 0).map
        BBox.min_y = .ok (.fin (-5))
    ∧ XR.fin (-5) ≠ XR.fin (0 - (0 + 0)) := by
  have hbb : BBox.add_xyarray (BBox.init none) [(0, 0), (1, 1)]
      = ⟨.fin 1, .fin 1, .fin 0, .fin 0, none⟩ := by
    norm_num [BBox.add_xyarray, List.foldl, BBox.init, BBox.add_point, XR.blt]
  rw [hbb]
  constructor
  · norm_num [BBox.pad, BBox.is_empty, BBox.copy, pyOrDefault, XR.subQ, XR.addQ,
      Except.map]
    simp
  · simp only [ne_eq, XR.fin.injEq]
    norm_num

/-- C9 (amended): for every nonempty BBox (bound or unbound) and every
combination of pad arguments, pad returns a new BBox that is always unbound,
with min_x lowered by left plus the horizontal amount, max_x raised by right
plus the horizontal amount, min_y lowered by bottom plus the effective
vertical amount and max_y raised by top plus it — where the effective
vertical amount is the supplied vertical amount when it is given and
nonzero, and otherwise the horizontal amount (the source computes
y = y or x, so an explicit vertical 0 is replaced by the horizontal amount).
pad builds the result on a copy, so the original BBox is unchanged. -/
theorem bbox_pad_additive_and_unbound (b : BBox) (hb : b.is_empty = false)
    (x : ℚ) (y : Option ℚ) (left top right bottom : ℚ) :
    b.pad x y left top right bottom
      = .ok { max_x := b.max_x.addQ (right + x),
              max_y := b.max_y.addQ (top + pyOrDefault y x),
              min_x := b.min_x.subQ (left + x),
              min_y := b.min_y.subQ (bottom + pyOrDefault y x),
              transformable := none } := by
  simp [BBox.pad, hb, BBox.copy]

/-- Witness for C9 (amended): padding the bbox with corners (0,0),(1,1) by
x = 5, unspecified y, left 1, top 2, right 3, bottom 4. -/
theorem bbox_pad_additive_and_unbound_witness :
    ((BBox.mk (.fin 1) (.fin 1) (.fin 0) (.fin 0) (some 7)).is_empty = false)
    ∧ (BBox.mk (.fin 1) (.fin 1) (.fin 0) (.fin 0) (some 7)).pad 5 none 1 2 3 4
      = .ok { max_x := .fin 9, max_y := .fin 8, min_x := .fin (-6),
              min_y := .fin (-9), transformable := none } := by
  refine ⟨rfl, ?_⟩
  rw [bbox_pad_additive_and_unbound
    (BBox.mk (.fin 1) (.fin 1) (.fin 0) (.fin 0) (some 7)) rfl 5 none 1 2 3 4]
  norm_num [XR.addQ, XR.subQ, pyOrDefault]

theorem keys_dictSet (d : List (String × Int)) (k : String) (v : Int) :
    (dictSet d k v).map Prod.fst
      = if k ∈ d.map Prod.fst then d.map Prod.fst else d.map Prod.fst ++ [k] := by
  by_cases hmem : k ∈ d.map Prod.fst
  · obtain ⟨kv0, hkv0, hk0⟩ := List.mem_map.mp hmem
    have hany : d.any (fun kv => kv.1 == k) = true :=
      List.any_eq_true.mpr ⟨kv0, hkv0, beq_iff_eq.mpr hk0⟩
    rw [if_pos hmem]
    simp only [dictSet, hany, if_true]
    rw [List.map_map]
    apply List.map_congr_left
    intro kv hkv
    by_cases he : kv.1 = k
    · simp [he]
    · simp [he]
  · have hany : d.any (fun kv => kv.1 == k) = false := by
      rw [List.any_eq_false]
      intro kv hkv
      simp only [beq_iff_eq]
      intro h
      exact hmem (List.mem_map.mpr ⟨kv, hkv, h⟩)
    rw [if_neg hmem]
    simp only [dictSet, hany, Bool.false_eq_true, if_false, List.map_append]
    rfl

theorem mem_keys_declsFoldl (decls : List (String × Int)) :
    ∀ (a : List (String × Int)) (k : String),
    (k ∈ (decls.foldl (fun a kv => dictSet a kv.1 kv.2) a).map Prod.fst)
      ↔ k ∈ a.map Prod.fst ∨ k ∈ decls.map Prod.fst := by
  induction decls with
  | nil => simp
  | cons kv rest ih =>
    intro a k
    rw [List.foldl_cons, ih, keys_dictSet]
    by_cases hk : kv.1 ∈ a.map Prod.fst
    · rw [if_pos hk]
      simp only [List.map_cons, List.mem_cons]
      constructor
      · tauto
      · rintro (h | h | h)
        · exact Or.inl h
        · subst h
          exact Or.inl hk
        · exact Or.inr h
    · rw [if_neg hk]
      simp only [List.map_cons, List.mem_cons, List.mem_append, List.mem_singleton]
      tauto

theorem mem_optionKeys (mro : List (List (String × Int))) (k : String) :
    k ∈ optionKeys mro ↔ ∃ ds ∈ mro, k ∈ ds.map Prod.fst := by
  have h : ∀ (ms : List (List (String × Int))) (a : List (String × Int)),
      (k ∈ (ms.foldl (fun acc decls =>
            decls.foldl (fun a kv => dictSet a kv.1 kv.2) acc) a).map Prod.fst)
        ↔ k ∈ a.map Prod.fst ∨ ∃ ds ∈ ms, k ∈ ds.map Prod.fst := by
    intro ms
    induction ms with
    | nil => simp
    | cons ds rest ih =>
      intro a
      rw [List.foldl_cons, ih, mem_keys_declsFoldl]
      constructor
      · rintro ((h | h) | h)
        · exact Or.inl h
        · exact Or.inr ⟨ds, List.mem_cons_self ds rest, h⟩
        · obtain ⟨d0, hd0, hkd0⟩ := h
          exact Or.inr ⟨d0, List.mem_cons_of_mem ds hd0, hkd0⟩
      · rintro (h | h)
        · exact Or.inl (Or.inl h)
        · obtain ⟨d0, hd0, hkd0⟩ := h
          rcases List.mem_cons.mp hd0 with rfl | hd0r
          · exact Or.inl (Or.inr hkd0)
          · exact Or.inr ⟨d0, hd0r, hkd0⟩
  have h2 := h mro []
  simpa [optionKeys, optionsDefaults] using h2

/-- C2: evaluating option resolution at the claim's failing input.  A
descendant class declares width with default 2, refining an ancestor that
declares width with default 1; with no overrides the resolved value of width
is the ANCESTOR's default 1, not the descendant's 2: the MRO walk of
Options.__init__ assigns the descendant's default first and then lets the
ancestor's later assignment overwrite it, so ancestor declarations shadow
descendant redeclarations rather than the other way around.  (Overridden
names do resolve to the override, applied after the whole defaults walk.) -/
theorem options_ancestor_default_overwrites_descendant :
    Options_init [[("width", 2)], [("width", 1)]] none = .ok [("width", 1)]
    ∧ ([("width", (1 : Int))] : List (String × Int)) ≠ [("width", 2)] := by
  constructor
  · rfl
  · decide

theorem mem_unknownFilter (mro : List (List (String × Int)))
    (vs : List (String × Int)) (k : String) :
    (k ∈ (vs.map Prod.fst).dedup.filter
        (fun k => !(((optionsDefaults mro).map Prod.fst).contains k)))
      ↔ (k ∈ vs.map Prod.fst ∧ k ∉ optionKeys mro) := by
  rw [List.mem_filter, List.mem_dedup]
  simp [optionKeys, List.elem_iff]

/-- C3: instance construction fails iff some override key is not a declared
option name (a key of the resolved defaults, i.e. a name declared somewhere
in the chain, by mem_optionKeys); the raised error carries exactly the set
of all unrecognized keys, not just the first; and on failure the result is
an error value, so no Options instance is returned. -/
theorem options_unknown_option_iff (mro : List (List (String × Int)))
    (vs : List (String × Int)) :
    ((∃ e, Options_init mro (some vs) = .error e)
        ↔ ∃ k ∈ vs.map Prod.fst, k ∉ optionKeys mro)
    ∧ (∀ unknown known,
        Options_init mro (some vs) = .error (.unknownOptionSupplied unknown known) →
        ∀ k, k ∈ unknown ↔ (k ∈ vs.map Prod.fst ∧ k ∉ optionKeys mro)) := by
  cases hE : ((vs.map Prod.fst).dedup.filter
      (fun k => !(((optionsDefaults mro).map Prod.fst).contains k))).isEmpty with
  | true =>
    constructor
    · constructor
      · rintro ⟨e, he⟩
        rw [Options_init] at he
        simp only [hE, if_true] at he
        exact Except.noConfusion he
      · rintro ⟨k, hk, hknot⟩
        exfalso
        rw [List.isEmpty_iff] at hE
        have hmem : k ∈ (vs.map Prod.fst).dedup.filter
            (fun k => !(((optionsDefaults mro).map Prod.fst).contains k)) :=
          (mem_unknownFilter mro vs k).mpr ⟨hk, hknot⟩
        rw [hE] at hmem
        exact List.not_mem_nil k hmem
    · intro unknown known he
      rw [Options_init] at he
      simp only [hE, if_true] at he
      exact Except.noConfusion he
  | false =>
    constructor
    · constructor
      · intro _
        obtain ⟨k, hk⟩ := List.isEmpty_eq_false_iff_exists_mem.mp hE
        obtain ⟨hk1, hk2⟩ := (mem_unknownFilter mro vs k).mp hk
        exact ⟨k, hk1, hk2⟩
      · intro _
        refine ⟨.unknownOptionSupplied
          ((vs.map Prod.fst).dedup.filter
            (fun k => !(((optionsDefaults mro).map Prod.fst).contains k)))
          ((optionsDefaults mro).map Prod.fst), ?_⟩
        rw [Options_init]
        simp only [hE, Bool.false_eq_true, if_false]
    · intro unknown known he k
      rw [Options_init] at he
      simp only [hE, Bool.false_eq_true, if_false, Except.error.injEq,
        OptionsError.unknownOptionSupplied.injEq] at he
      rw [← mem_unknownFilter mro vs k, he.1]

/-- Witness for C3: supplying option key "bogus" to a chain declaring only
width and height fails with the unknown-option error, and applying the
reported-keys conjunct at the concrete error shows "bogus" is reported. -/
theorem options_unknown_option_iff_witness :
    (∃ e, Options_init [[("width", 1), ("height", 2)]] (some [("bogus", 3)])
        = .error e)
    ∧ "bogus" ∈ (["bogus"] : List String) := by
  constructor
  · exact (options_unknown_option_iff [[("width", 1), ("height", 2)]]
      [("bogus", 3)]).1.mpr ⟨"bogus", by decide, by decide⟩
  · exact ((options_unknown_option_iff [[("width", 1), ("height", 2)]]
      [("bogus", 3)]).2 ["bogus"] ["width", "height"] rfl "bogus").mpr
      ⟨by decide, by decide⟩

theorem lookup_identity (cl : List String) (l : String) (h : l ∈ cl) :
    (cl.map (fun x => (x, some x))).lookup l = some (some l) := by
  induction cl with
  | nil => cases h
  | cons a rest ih =>
    by_cases he : a = l
    · subst he
      simp [List.lookup]
    · simp only [List.map_cons, List.lookup, beq_eq_false_iff_ne.mpr (Ne.symm he)]
      rcases List.mem_cons.mp h with rfl | h2
      · exact absurd rfl he
      · exact ih h2

theorem lookup_pad_none (ls : List String) (l : String) (h : l ∈ ls) :
    (ls.map (fun x => (x, (none : Option String)))).lookup l = some none := by
  induction ls with
  | nil => cases h
  | cons a rest ih =>
    by_cases he : a = l
    · subst he
      simp [List.lookup]
    · simp only [List.map_cons, List.lookup, beq_eq_false_iff_ne.mpr (Ne.symm he)]
      rcases List.mem_cons.mp h with rfl | h2
      · exact absurd rfl he
      · exact ih h2

theorem lookup_append_of_mem (m1 m2 : LMap) (k : String)
    (h : k ∈ m1.map Prod.fst) : (m1 ++ m2).lookup k = m1.lookup k := by
  induction m1 with
  | nil => cases h
  | cons kv rest ih =>
    by_cases he : kv.1 = k
    · simp [List.lookup, he]
    · simp only [List.cons_append, List.lookup, beq_eq_false_iff_ne.mpr (Ne.symm he)]
      rcases List.mem_cons.mp h with h1 | h2
      · exact absurd h1.symm he
      · exact ih h2

theorem lookup_append_of_not_mem (m1 m2 : LMap) (k : String)
    (h : k ∉ m1.map Prod.fst) : (m1 ++ m2).lookup k = m2.lookup k := by
  induction m1 with
  | nil => rfl
  | cons kv rest ih =>
    simp only [List.map_cons, List.mem_cons, not_or] at h
    simp only [List.cons_append, List.lookup,
      beq_eq_false_iff_ne.mpr h.1]
    exact ih h.2

theorem lookup_of_mem_nodup (m : LMap) (k : String) (v : Option String)
    (hnd : (m.map Prod.fst).Nodup) (h : (k, v) ∈ m) : m.lookup k = some v := by
  induction m with
  | nil => cases h
  | cons kv rest ih =>
    simp only [List.map_cons, List.nodup_cons] at hnd
    rcases List.mem_cons.mp h with h1 | h2
    · subst h1
      simp [List.lookup]
    · have hne : kv.1 ≠ k := by
        intro he
        exact hnd.1 (he ▸ List.mem_map.mpr ⟨(k, v), h2, rfl⟩)
      simp only [List.lookup, beq_eq_false_iff_ne.mpr (Ne.symm hne)]
      exact ih hnd.2 h2

theorem identity_keys (cl : List String) :
    (cl.map (fun l => (l, some l))).map Prod.fst = cl := by
  induction cl with
  | nil => rfl
  | cons a rest ih => simp [ih]

/-- C4: resolving an absent layer-map shorthand yields (i) the identity map
over the child's layer set, with no warning, whenever the child's layers are
a subset of the parent's (the resolved map sends every child layer to
itself); (ii) when not in the subset case and both layer sets are
singletons, the map sending the sole child layer to the sole parent layer
(flagged by the implicit-mapping advisory); (iii) a failure with the
ambiguous-layer-map error, reporting both layer sets, in every other case. -/
theorem layermap_absent_shorthand_resolution (parentLayers childLayers : List String) :
    ((∀ l ∈ childLayers.dedup, l ∈ parentLayers.dedup) →
      parse_subcomponent_layermap_shorthand parentLayers childLayers .absent
        = .ok ([], childLayers.dedup.map (fun l => (l, some l)))
      ∧ ∀ l ∈ childLayers.dedup,
          (childLayers.dedup.map (fun x => (x, some x))).lookup l = some (some l))
    ∧ ((¬ ∀ l ∈ childLayers.dedup, l ∈ parentLayers.dedup) →
        ∀ c p, childLayers.dedup = [c] → parentLayers.dedup = [p] →
      parse_subcomponent_layermap_shorthand parentLayers childLayers .absent
        = .ok ([.implicitSingle c p], [(c, some p)]))
    ∧ ((¬ ∀ l ∈ childLayers.dedup, l ∈ parentLayers.dedup) →
        ¬ (parentLayers.dedup.length = 1 ∧ childLayers.dedup.length = 1) →
      parse_subcomponent_layermap_shorthand parentLayers childLayers .absent
        = .error (.ambiguous childLayers.dedup parentLayers.dedup)) := by
  refine ⟨?_, ?_, ?_⟩
  · intro hsub
    have hall : childLayers.dedup.all (fun l => parentLayers.dedup.contains l) = true :=
      List.all_eq_true.mpr (fun l hl => List.elem_iff.mpr (hsub l hl))
    have hmiss : childLayers.dedup.filter (fun l =>
        !(((childLayers.dedup.map (fun l => (l, some l))).map Prod.fst).contains l))
          = [] := by
      rw [identity_keys]
      apply List.filter_eq_nil_iff.mpr
      intro l hl
      simp
      exact List.mem_dedup.mp hl
    constructor
    · rw [parse_subcomponent_layermap_shorthand]
      simp only [hall, if_true, hmiss, List.map_nil, List.append_nil]
    · intro l hl
      exact lookup_identity childLayers.dedup l hl
  · intro hnsub c p hc hp
    have hall : childLayers.dedup.all (fun l => parentLayers.dedup.contains l) = false := by
      rw [List.all_eq_false]
      push_neg at hnsub
      obtain ⟨l, hl, hlnot⟩ := hnsub
      exact ⟨l, hl, by simpa [List.elem_iff] using hlnot⟩
    have hcp : ¬(c = p) := by
      rw [hc, hp] at hall
      simpa using hall
    rw [parse_subcomponent_layermap_shorthand]
    simp only [hc, hp]
    simp [hcp]
  · intro hnsub hnsing
    have hall : childLayers.dedup.all (fun l => parentLayers.dedup.contains l) = false := by
      rw [List.all_eq_false]
      push_neg at hnsub
      obtain ⟨l, hl, hlnot⟩ := hnsub
      exact ⟨l, hl, by simpa [List.elem_iff] using hlnot⟩
    have hlen : (parentLayers.dedup.length == 1 && childLayers.dedup.length == 1) = false := by
      rcases Decidable.em (parentLayers.dedup.length = 1) with h1 | h1
      · rcases Decidable.em (childLayers.dedup.length = 1) with h2 | h2
        · exact absurd ⟨h1, h2⟩ hnsing
        · simp [h2]
      · simp [h1]
    rw [parse_subcomponent_layermap_shorthand]
    simp only [hall, Bool.false_eq_true, if_false, hlen]

/-- Witness for C4: all three cases of absent-shorthand resolution at
concrete layer sets. -/
theorem layermap_absent_shorthand_resolution_witness :
    parse_subcomponent_layermap_shorthand ["A", "B"] ["A"] .absent
      = .ok ([], [("A", some "A")])
    ∧ parse_subcomponent_layermap_shorthand ["P"] ["C"] .absent
      = .ok ([.implicitSingle "C" "P"], [("C", some "P")])
    ∧ parse_subcomponent_layermap_shorthand ["P", "Q"] ["C", "D"] .absent
      = .error (.ambiguous ["C", "D"] ["P", "Q"]) := by
  refine ⟨?_, ?_, ?_⟩
  · exact ((layermap_absent_shorthand_resolution ["A", "B"] ["A"]).1 (by decide)).1
  · exact (layermap_absent_shorthand_resolution ["P"] ["C"]).2.1 (by decide)
      "C" "P" (by decide) (by decide)
  · exact (layermap_absent_shorthand_resolution ["P", "Q"] ["C", "D"]).2.2
      (by decide) (by decide)

/-- C5: full-mapping shorthand resolution fails iff some key is not a
declared child layer or some value is not a declared parent layer (an
explicit None value is not one); on success the result is the dictionary
extended with a discard (None) entry for each child layer missing from it,
together with exactly one discard warning per missing layer, and the
resolved map agrees with the dictionary on the dictionary's keys, maps every
missing child layer to discard, and is total over the child's layer set (its
key set is exactly the child layer set).  The warnings accompany the
resolved map without altering any resolved value. -/
theorem layermap_full_mapping_resolution (parentLayers childLayers : List String)
    (d : LMap) :
    ((∃ e, parse_subcomponent_layermap_shorthand parentLayers childLayers (.full d)
        = .error e)
      ↔ (∃ kv ∈ d, kv.1 ∉ childLayers.dedup)
        ∨ (∃ kv ∈ d, isParentLayerValue parentLayers.dedup kv.2 = false))
    ∧ ((∀ kv ∈ d, kv.1 ∈ childLayers.dedup) →
       (∀ kv ∈ d, isParentLayerValue parentLayers.dedup kv.2 = true) →
      parse_subcomponent_layermap_shorthand parentLayers childLayers (.full d)
        = .ok ((childLayers.dedup.filter (fun l => !((d.map Prod.fst).contains l))).map
                 .discardedLayer,
               d ++ (childLayers.dedup.filter
                 (fun l => !((d.map Prod.fst).contains l))).map (fun l => (l, none)))
      ∧ ((d.map Prod.fst).Nodup → ∀ kv ∈ d,
          (d ++ (childLayers.dedup.filter
            (fun l => !((d.map Prod.fst).contains l))).map (fun l => (l, none))).lookup kv.1
            = some kv.2)
      ∧ (∀ l ∈ childLayers.dedup, l ∉ d.map Prod.fst →
          (d ++ (childLayers.dedup.filter
            (fun l => !((d.map Prod.fst).contains l))).map (fun l => (l, none))).lookup l
            = some none)
      ∧ (∀ l, (l ∈ (d ++ (childLayers.dedup.filter
            (fun l => !((d.map Prod.fst).contains l))).map (fun l => (l, none))).map Prod.fst)
          ↔ l ∈ childLayers.dedup)) := by
  constructor
  · cases hk : d.all (fun kv => childLayers.dedup.contains kv.1) with
    | false =>
      obtain ⟨kv, hkv, hnot⟩ := List.all_eq_false.mp hk
      constructor
      · intro _
        exact Or.inl ⟨kv, hkv, by simpa [List.elem_iff] using hnot⟩
      · intro _
        refine ⟨.keysNotSubset, ?_⟩
        rw [parse_subcomponent_layermap_shorthand]
        simp only [hk, Bool.not_false, if_true]
    | true =>
      cases hv : d.all (fun kv => isParentLayerValue parentLayers.dedup kv.2) with
      | false =>
        obtain ⟨kv, hkv, hnot⟩ := List.all_eq_false.mp hv
        constructor
        · intro _
          exact Or.inr ⟨kv, hkv, by simpa using hnot⟩
        · intro _
          refine ⟨.valuesNotSubset, ?_⟩
          rw [parse_subcomponent_layermap_shorthand]
          simp only [hk, hv, Bool.not_true, Bool.not_false, Bool.false_eq_true,
            if_false, if_true]
      | true =>
        constructor
        · rintro ⟨e, he⟩
          rw [parse_subcomponent_layermap_shorthand] at he
          simp only [hk, hv, Bool.not_true, Bool.false_eq_true, if_false] at he
          exact Except.noConfusion he
        · rintro (⟨kv, hkv, hnot⟩ | ⟨kv, hkv, hnot⟩)
          · exact absurd (List.elem_iff.mp (List.all_eq_true.mp hk kv hkv)) hnot
          · exact absurd (List.all_eq_true.mp hv kv hkv) (by simp [hnot])
  · intro h1 h2
    have hk : d.all (fun kv => childLayers.dedup.contains kv.1) = true :=
      List.all_eq_true.mpr (fun kv hkv => List.elem_iff.mpr (h1 kv hkv))
    have hv : d.all (fun kv => isParentLayerValue parentLayers.dedup kv.2) = true :=
      List.all_eq_true.mpr (fun kv hkv => h2 kv hkv)
    refine ⟨?_, ?_, ?_, ?_⟩
    · rw [parse_subcomponent_layermap_shorthand]
      simp only [hk, hv, Bool.not_true, Bool.false_eq_true, if_false,
        List.nil_append]
    · intro hnd kv hkv
      rw [lookup_append_of_mem _ _ _ (List.mem_map.mpr ⟨kv, hkv, rfl⟩)]
      exact lookup_of_mem_nodup d kv.1 kv.2 hnd hkv
    · intro l hl hlnot
      rw [lookup_append_of_not_mem _ _ _ hlnot]
      apply lookup_pad_none
      rw [List.mem_filter]
      refine ⟨hl, ?_⟩
      simp only [Bool.not_eq_true', ← Bool.not_eq_true]
      intro hcon
      exact hlnot (List.elem_iff.mp hcon)
    · intro l
      rw [List.map_append, List.mem_append]
      constructor
      · rintro (hin | hin)
        · obtain ⟨kv, hkv, rfl⟩ := List.mem_map.mp hin
          exact h1 kv hkv
        · rw [List.map_map] at hin
          obtain ⟨x, hx, hxl⟩ := List.mem_map.mp hin
          have hxe : x = l := hxl
          subst hxe
          exact (List.mem_filter.mp hx).1
      · intro hl
        by_cases hin : l ∈ d.map Prod.fst
        · exact Or.inl hin
        · refine Or.inr ?_
          rw [List.map_map]
          refine List.mem_map.mpr ⟨l, ?_, rfl⟩
          rw [List.mem_filter]
          refine ⟨hl, ?_⟩
          simp only [Bool.not_eq_true', ← Bool.not_eq_true]
          intro hcon
          exact hin (List.elem_iff.mp hcon)

/-- Witness for C5: child layers A and B, parent layer C, dictionary mapping
only A: resolution succeeds with B padded to discard plus its warning, the
resolved map agrees with the dictionary on A and discards B; a dictionary
with the undeclared key X fails. -/
theorem layermap_full_mapping_resolution_witness :
    parse_subcomponent_layermap_shorthand ["C"] ["A", "B"] (.full [("A", some "C")])
      = .ok ([.discardedLayer "B"], [("A", some "C"), ("B", none)])
    ∧ ([("A", some "C"), ("B", none)] : LMap).lookup "A" = some (some "C")
    ∧ ([("A", some "C"), ("B", none)] : LMap).lookup "B" = some none
    ∧ (∃ e, parse_subcomponent_layermap_shorthand ["C"] ["A", "B"]
        (.full [("X", some "C")]) = .error e) := by
  have h := (layermap_full_mapping_resolution ["C"] ["A", "B"] [("A", some "C")]).2
    (by decide) (by decide)
  refine ⟨h.1, h.2.1 (by decide) ("A", some "C") (by decide), ?_, ?_⟩
  · exact h.2.2.1 "B" (by decide) (by decide)
  · exact (layermap_full_mapping_resolution ["C"] ["A", "B"] [("X", some "C")]).1.mpr
      (Or.inl ⟨("X", some "C"), by decide, by decide⟩)

/-- C10: when a full-mapping dict shorthand passes validation, the resolver
returns the very dict object the caller passed in — the same store cell —
and that cell now holds the caller's dictionary extended in place with a
discard (None) entry for each child layer absent from it, while every other
heap cell is untouched.  The caller's own mapping has thus been mutated into
the total LayerMap rather than being left unchanged. -/
theorem full_mapping_pads_caller_dict_in_place (parentLayers childLayers : List String)
    (store : DictStore) (i : Nat)
    (h1 : ∀ kv ∈ store.getD i [], kv.1 ∈ childLayers.dedup)
    (h2 : ∀ kv ∈ store.getD i [], isParentLayerValue parentLayers.dedup kv.2 = true) :
    parse_layermap_dict_in_store parentLayers childLayers store i
      = .ok (store.set i ((store.getD i []) ++ (childLayers.dedup.filter
          (fun l => !(((store.getD i []).map Prod.fst).contains l))).map
            (fun l => (l, none))), i)
    ∧ ∀ j, j ≠ i →
        (store.set i ((store.getD i []) ++ (childLayers.dedup.filter
          (fun l => !(((store.getD i []).map Prod.fst).contains l))).map
            (fun l => (l, none)))).getD j [] = store.getD j [] := by
  constructor
  · have hk : (store.getD i []).all
        (fun kv => childLayers.dedup.contains kv.1) = true :=
      List.all_eq_true.mpr (fun kv hkv => List.elem_iff.mpr (h1 kv hkv))
    have hv : (store.getD i []).all
        (fun kv => isParentLayerValue parentLayers.dedup kv.2) = true :=
      List.all_eq_true.mpr (fun kv hkv => h2 kv hkv)
    rw [parse_layermap_dict_in_store]
    simp only [hk, hv, Bool.not_true, Bool.false_eq_true, if_false]
  · intro j hj
    rw [List.getD_eq_getElem?_getD, List.getD_eq_getElem?_getD,
      List.getElem?_set_ne (fun he => hj he.symm)]
    exact (List.getD_eq_getElem?_getD store j []).symm

/-- Witness for C10: the caller's dict cell 0 holding the mapping A to C,
with child layers A and B, is mutated in place into the padded total map and
returned itself; cell 1 is untouched. -/
theorem full_mapping_pads_caller_dict_in_place_witness :
    parse_layermap_dict_in_store ["C"] ["A", "B"]
        [[("A", some "C")], [("Z", some "Q")]] 0
      = .ok ([[("A", some "C"), ("B", none)], [("Z", some "Q")]], 0)
    ∧ ([[("A", some "C"), ("B", none)], [("Z", some "Q")]] : DictStore).getD 1 []
      = ([[("A", some "C")], [("Z", some "Q")]] : DictStore).getD 1 [] := by
  have h := full_mapping_pads_caller_dict_in_place ["C"] ["A", "B"]
    [[("A", some "C")], [("Z", some "Q")]] 0 (by decide) (by decide)
  exact ⟨h.1, h.2 1 (by decide)⟩

/-- C1 counterexample: attaching an instance to itself — the simplest case of
the claimed universally-rejected family, where the attached instance IS the
attempted parent — does not fail at all, with CyclicAttachment or otherwise:
on a store holding one instance with layer A and no attachments, attaching
instance 0 to itself succeeds and the parent's attachment list, empty before
the call, now holds the self-reference.  No cycle check exists in
add_subcomponent. -/
theorem add_subcomponent_self_attach_cex :
    add_subcomponent [⟨["A"], []⟩] 0 0 .absent
      = .ok [⟨["A"], [(0, [("A", some "A")])]⟩]
    ∧ ([(0, [("A", some "A")])] : List (Nat × LMap)) ≠ [] := by
  constructor
  · rfl
  · decide

/-- C1 (amended): add_subcomponent performs no cycle detection whatsoever:
for every store and every pair of instance references — including the parent
itself and any of its ancestors — whenever the layer-map shorthand resolves,
the attach succeeds and appends exactly one Subcomponent record (the child
reference with the resolved map) to the parent's attachment list, leaving
everything else in the parent unchanged. -/
theorem add_subcomponent_no_cycle_check (store : List CompoNode) (parent child : Nat)
    (sh : LayermapShorthand) (w : List LayerMapWarning) (lmap : LMap)
    (h : parse_subcomponent_layermap_shorthand (store.getD parent ⟨[], []⟩).layers
          (store.getD child ⟨[], []⟩).layers sh = .ok (w, lmap)) :
    add_subcomponent store parent child sh
      = .ok (store.set parent
          { store.getD parent ⟨[], []⟩ with
            subcompos := (store.getD parent ⟨[], []⟩).subcompos ++ [(child, lmap)] }) := by
  rw [add_subcomponent, h]

/-- Witness for C1 (amended): the self-attach of the counterexample input,
derived through the general no-cycle-check theorem. -/
theorem add_subcomponent_no_cycle_check_witness :
    add_subcomponent [⟨["A"], []⟩] 0 0 .absent
      = .ok [⟨["A"], [(0, [("A", some "A")])]⟩] := by
  have h := add_subcomponent_no_cycle_check [⟨["A"], []⟩] 0 0 .absent
    [] [("A", some "A")] rfl
  simpa using h

theorem copySubpolygons_strip (l : List Subpolygon) :
    ∀ n, ((copySubpolygons l n).1).map stripId = l.map stripId := by
  induction l with
  | nil => intro n; rfl
  | cons sp rest ih =>
    intro n
    simp only [copySubpolygons, List.map_cons]
    rw [ih]
    rfl

theorem remapCopy_strip (lm : LMap) (l : List Subpolygon) :
    ∀ n, ((remapCopy lm l n).1).map stripId = remapGeo lm (l.map stripId) := by
  induction l with
  | nil => intro n; rfl
  | cons sp rest ih =>
    intro n
    cases hg : lmapGet lm sp.layer with
    | none =>
      simp only [remapCopy, remapGeo, List.map_cons, stripId, hg]
      exact ih n
    | some tgt =>
      simp only [remapCopy, remapGeo, List.map_cons, stripId, hg]
      rw [ih]
      rfl

theorem outerPass_strip (lm : LMap) (tf : Affine) (doT : Bool) (l : List Subpolygon) :
    ∀ n, ((outerPass lm tf doT l n).1).map stripId
      = outerGeo lm tf doT (l.map stripId) := by
  induction l with
  | nil => intro n; rfl
  | cons sp rest ih =>
    intro n
    cases hg : lmapGet lm sp.layer with
    | none =>
      simp only [outerPass, outerGeo, List.map_cons, stripId, hg]
      exact ih n
    | some tgt =>
      cases doT with
      | false =>
        simp only [outerPass, outerGeo, List.map_cons, stripId, hg, if_false,
          Bool.false_eq_true]
        rw [ih]
        rfl
      | true =>
        simp only [outerPass, outerGeo, List.map_cons, stripId, hg, if_true]
        rw [ih]
        rfl

mutual

theorem get_subpolygons_strip (c : Compo) (layermap : Option LMap) (doT : Bool)
    (n : Nat) :
    ((c.get_subpolygons layermap doT n).1).map stripId
      = c.flatten_geo layermap doT := by
  cases c with
  | mk layers tf subs polys =>
    rw [Compo.get_subpolygons, Compo.flatten_geo]
    rw [outerPass_strip, List.map_append, copySubpolygons_strip,
      subsPass_strip subs n]
termination_by (sizeOf c, 1)

theorem subsPass_strip (subs : List (Compo × LMap)) (n : Nat) :
    ((subsPass subs n).1).map stripId = subsGeo subs := by
  match subs with
  | [] => simp [subsPass, subsGeo]
  | (child, lm) :: rest =>
    rw [subsPass, subsGeo]
    rw [List.map_append, subcompoPass_strip child lm n,
      subsPass_strip rest (subcompoPass child lm n).2]
termination_by (sizeOf subs, 2)

theorem subcompoPass_strip (child : Compo) (lm : LMap) (n : Nat) :
    ((subcompoPass child lm n).1).map stripId = subcompoGeo child lm := by
  rw [subcompoPass, subcompoGeo]
  rw [remapCopy_strip, get_subpolygons_strip child none true n]
termination_by (sizeOf child, 2)

end

/-- C7: flattening is a deterministic pure function of the instance tree:
flattening the same (unmutated, as all values here are immutable) tree twice
yields identical ordered output, the same (polygon geometry, layer) list
element for element — both runs equal the allocation-independent
flatten_geo of the tree, whatever the allocator states n1 and n2 are. -/
theorem flatten_deterministic (c : Compo) (n1 n2 : Nat) :
    ((Compo.flatten c n1).1).map stripId = ((Compo.flatten c n2).1).map stripId := by
  rw [Compo.flatten, Compo.flatten, get_subpolygons_strip, get_subpolygons_strip]

/-- C6: template T declares layers A and B; instance X (with placement
transform tfX) owns one polygon on A and one on B.  Template U declares
layer C; instance Y (transform tfY) attaches X with layer map
A to C, B to discard.  flatten(Y) returns exactly one polygon, tagged C,
whose geometry is X's A-polygon transformed by X's placement and then Y's
(the composed placement of X under Y); X's B-polygon is absent, and the
returned polygon is a copy: its object id n0 + 5 is fresh from the
allocator, distinct from the ids of both polygons stored in the tree
(idA, idB < n0). -/
theorem flatten_two_layer_discard_scenario (idA idB n0 : Nat)
    (hA : idA < n0) (hB : idB < n0)
    (ptsA ptsB : List (Int × Int)) (tfX tfY : Affine) :
    (Compo.flatten
        (.mk ["C"] tfY
          [(.mk ["A", "B"] tfX [] [⟨⟨idA, ptsA⟩, "A"⟩, ⟨⟨idB, ptsB⟩, "B"⟩],
            [("A", some "C"), ("B", none)])]
          [])
        n0).1
      = [⟨⟨n0 + 5, ptsA.map (fun p => tfY.apply (tfX.apply p))⟩, "C"⟩]
    ∧ n0 + 5 ≠ idA ∧ n0 + 5 ≠ idB := by
  refine ⟨?_, by omega, by omega⟩
  have e1 : ("B" == "A") = false := by decide
  have e2 : ("A" == "A") = true := by decide
  have e3 : ("C" == "C") = true := by decide
  have e4 : ("B" == "B") = true := by decide
  simp only [Compo.flatten, Compo.get_subpolygons, subsPass, subcompoPass,
    copySubpolygons, Subpolygon.get_subpolygon, Subpolygon.get_polygon,
    Polygon.copy, Polygon.apply_transform, outerPass, remapCopy, lmapGet,
    List.lookup, Option.getD, List.map, List.nil_append, List.append_nil,
    List.cons_append, List.map_map, e1, e2, e3, e4]
  norm_num [Function.comp]

/-- Witness for C6: stored polygon ids 0 and 1, allocator at 2, X's A-polygon
is the single point (0,0), X translates by (1,2) and Y by (3,4); the single
returned polygon is the fresh copy id 7 tagged C at (4,6). -/
theorem flatten_two_layer_discard_scenario_witness :
    (Compo.flatten
        (.mk ["C"] ⟨1, 0, 0, 1, 3, 4⟩
          [(.mk ["A", "B"] ⟨1, 0, 0, 1, 1, 2⟩ []
              [⟨⟨0, [(0, 0)]⟩, "A"⟩, ⟨⟨1, [(9, 9)]⟩, "B"⟩],
            [("A", some "C"), ("B", none)])]
          [])
        2).1
      = [⟨⟨7, [(4, 6)]⟩, "C"⟩] := by
  have h := flatten_two_layer_discard_scenario 0 1 2 (by decide) (by decide)
    [(0, 0)] [(9, 9)] ⟨1, 0, 0, 1, 1, 2⟩ ⟨1, 0, 0, 1, 3, 4⟩
  rw [h.1]
  norm_num [Affine.apply]
